import Mathlib

/-!
Verification development for the Arasan chess engine scoring subsystem.

The definitions below are a shallow embedding of the interfaces declared in
`src/scoring.h`, `src/rockstar.cpp` and `src/syzygy.h`.  C++ signed machine
integers (`score_t`, `int32_t`) are modelled as `Int`; C++ integer division
truncates toward zero, which is `Int.tdiv`.  Bitboards are modelled as `Nat`
masks.  Doubles in the tuning wrapper are modelled as exact rationals.
Where the body of a function is not part of the given sources (only its
declaration or callers are), the definition is modelled from the
specification and is marked as such in its doc comment.
-/

namespace Arasan

/-- Side colors, as in Arasan's `ColorType` (declared in the external
`board.h`; only the two constructors `White`/`Black` are needed here). -/
inductive ColorType where
  | White : ColorType
  | Black : ColorType
deriving DecidableEq, Repr

/-- The other color. -/
def oppositeColor : ColorType → ColorType
  | ColorType.White => ColorType.Black
  | ColorType.Black => ColorType.White

/-- The scores for opening, middlegame and endgame: `Scoring::Scores`
(scoring.h lines 181-201), a triple `mid`, `end`, `any` of `score_t`. -/
structure Scores where
  mid : Int
  «end» : Int
  any : Int
deriving DecidableEq, Repr

/-- `Scoring::Scores::blend` (scoring.h lines 190-193):
`any + mid*Params::MATERIAL_SCALE[materialLevel]/128 +
 end*(128-Params::MATERIAL_SCALE[materialLevel])/128`.
The table `Params::MATERIAL_SCALE` lives in `params.h`, which is not part of
the given sources, so it is passed in as a function; the spec constrains its
values to `[0,128]`.  C++ `/` on signed integers is `Int.tdiv`. -/
def Scores.blend (s : Scores) (MATERIAL_SCALE : Nat → Int) (materialLevel : Nat) : Int :=
  s.any + Int.tdiv (s.mid * MATERIAL_SCALE materialLevel) 128 +
    Int.tdiv (s.«end» * (128 - MATERIAL_SCALE materialLevel)) 128

/-- `Scoring::Scores::operator==` (scoring.h lines 195-197): called as
`a == b` (so `this` is `a` and the argument `s` is `b`), it returns
`s.mid == mid && s.end == end && s.any == any`. -/
def scoresEq (a b : Scores) : Bool :=
  b.mid == a.mid && b.«end» == a.«end» && b.any == a.any

/-- `Scoring::Scores::operator!=` (scoring.h lines 198-200): called as
`a != b`, it returns `s.mid != mid || s.end != end || s.any != any`. -/
def scoresNe (a b : Scores) : Bool :=
  b.mid != a.mid || b.«end» != a.«end» || b.any != a.any

/-- `Scoring::mateScore` (scoring.h lines 63-66):
`score != Constants::INVALID_SCORE && (score >= Constants::TABLEBASE_WIN ||
score <= -Constants::TABLEBASE_WIN)`.  The two constants live in the external
`constants.h`, so they are parameters here. -/
def mateScore (INVALID_SCORE TABLEBASE_WIN score : Int) : Bool :=
  decide (score ≠ INVALID_SCORE) &&
    (decide (TABLEBASE_WIN ≤ score) || decide (score ≤ -TABLEBASE_WIN))

/-- `Scoring::PAWN_HASH_SIZE` in a normal build (scoring.h line 103). -/
def PAWN_HASH_SIZE : Nat := 16384

/-- `Scoring::PAWN_HASH_SIZE` when built with `TUNE` (scoring.h line 101). -/
def PAWN_HASH_SIZE_TUNE : Nat := 8096

/-- `Scoring::KING_PAWN_HASH_SIZE` (scoring.h line 105). -/
def KING_PAWN_HASH_SIZE : Nat := 8132

/-- The size predicate asserted by the spec for the two evaluator cache
tables: the size is a power of two, or a prime. -/
def pow2OrPrime (n : Nat) : Prop :=
  (∃ k, n = 2 ^ k) ∨ Nat.Prime n

/-- `Scoring::PawnDetail` (scoring.h lines 83-96): per-pawn flags, space
weight and square.  The flag bitmask and the `byte`/`Square` fields are
modelled as `Nat`. -/
structure PawnDetail where
  flags : Nat
  space_weight : Nat
  sq : Nat
deriving DecidableEq, Repr

/-- `Scoring::PawnHashEntry::PawnData` (scoring.h lines 115-134, non-TUNE
branch): bitboards and byte masks as `Nat`, the `int32_t` scores and counters
as `Int`, and the 8-slot `details` array as a list. -/
structure PawnData where
  passers : Nat
  opponent_pawn_attacks : Nat
  weak_pawns : Nat
  weakopen : Nat
  pawn_file_mask : Nat
  passer_file_mask : Nat
  endgame_score : Int
  midgame_score : Int
  w_square_pawns : Int
  b_square_pawns : Int
  outside : Int
  details : List PawnDetail
deriving DecidableEq, Repr

/-- `Scoring::PawnHashEntry` (scoring.h lines 111-139): the stored pawn
fingerprint `hc` plus one `PawnData` per side. -/
structure PawnHashEntry where
  hc : Nat
  wPawnData : PawnData
  bPawnData : PawnData
deriving DecidableEq, Repr

/-- `Scoring::PawnHashEntry::pawnData` (scoring.h lines 136-138). -/
def PawnHashEntry.pawnData (e : PawnHashEntry) (side : ColorType) : PawnData :=
  match side with
  | ColorType.White => e.wPawnData
  | ColorType.Black => e.bPawnData

/-- `Scoring::KingPawnHashEntry` (scoring.h lines 141-155, non-TUNE branch):
the stored king+pawn fingerprint plus four `int32_t` scores. -/
structure KingPawnHashEntry where
  hc : Nat
  cover : Int
  storm : Int
  pawn_attacks : Int
  king_endgame_position : Int
deriving DecidableEq, Repr

/-- Modelled from the spec: the `Board` type lives in the external `board.h`.
Only the fields the cached evaluator consults are modelled — the
pawn-structure fingerprint, the per-side king+pawn fingerprints and the side
to move. -/
structure Board where
  pawnHash : Nat
  kpHash : ColorType → Nat
  sideToMove : ColorType

/-- The evaluator-owned cache storage: `Scoring::pawnHashTable` (one table of
`PAWN_HASH_SIZE` entries, scoring.h line 139) and `Scoring::kingPawnHashTable`
(one table of `KING_PAWN_HASH_SIZE` entries per side, scoring.h line 157),
modelled as total maps from the table index. -/
structure EvalState where
  pawnHashTable : Nat → PawnHashEntry
  kingPawnHashTable : ColorType → Nat → KingPawnHashEntry

/-- Modelled from the spec: the bodies of `Scoring::calcPawnEntry`, the king
cover/storm/endgame-position calculations and the downstream
material/positional scoring live in `scoring.cpp`, which is not among the
given sources.  They are modelled as arbitrary pure functions.  Per the
spec's cache invariant (a lookup that reports a hit must be bit-identical to
a fresh computation for that exact pawn/king configuration), the feature
computations are functions of the fingerprint that keys the cache, and
everything downstream of the two caches is one pure function `combine` of
the board and the three cache entries. -/
structure EvalFns where
  calcPawnData : Nat → PawnData × PawnData
  calcKPData : Nat → Int × Int × Int × Int
  combine : Board → PawnHashEntry → KingPawnHashEntry → KingPawnHashEntry → Int

/-- The pawn hash entry a fresh computation produces for fingerprint `h`. -/
def mkPawnEntry (F : EvalFns) (h : Nat) : PawnHashEntry :=
  { hc := h, wPawnData := (F.calcPawnData h).1, bPawnData := (F.calcPawnData h).2 }

/-- The king+pawn hash entry a fresh computation produces for fingerprint `h`. -/
def mkKPEntry (F : EvalFns) (h : Nat) : KingPawnHashEntry :=
  { hc := h
    cover := (F.calcKPData h).1
    storm := (F.calcKPData h).2.1
    pawn_attacks := (F.calcKPData h).2.2.1
    king_endgame_position := (F.calcKPData h).2.2.2 }

/-- Modelled from the spec: `Scoring::pawnEntry` (declared at scoring.h line
159, body in the missing `scoring.cpp`).  If `useCache` is false it always
recomputes, consulting and updating nothing; if true it indexes the table by
`fingerprint mod PAWN_HASH_SIZE`, returns the stored entry when the stored
fingerprint matches, and otherwise recomputes and overwrites the slot. -/
def pawnEntry (F : EvalFns) (board : Board) (useCache : Bool) (st : EvalState) :
    PawnHashEntry × EvalState :=
  match useCache with
  | false => (mkPawnEntry F board.pawnHash, st)
  | true =>
    if (st.pawnHashTable (board.pawnHash % PAWN_HASH_SIZE)).hc = board.pawnHash then
      (st.pawnHashTable (board.pawnHash % PAWN_HASH_SIZE), st)
    else
      (mkPawnEntry F board.pawnHash,
       { st with pawnHashTable := fun j =>
           if j = board.pawnHash % PAWN_HASH_SIZE then mkPawnEntry F board.pawnHash
           else st.pawnHashTable j })

/-- Modelled from the spec: `Scoring::getKPEntry` (declared at scoring.h
lines 161-165, body in the missing `scoring.cpp`).  Same hit/miss/overwrite
discipline as `pawnEntry`, on the per-side table of `KING_PAWN_HASH_SIZE`
entries, keyed by the side's king+pawn fingerprint. -/
def getKPEntry (F : EvalFns) (side : ColorType) (board : Board) (useCache : Bool)
    (st : EvalState) : KingPawnHashEntry × EvalState :=
  match useCache with
  | false => (mkKPEntry F (board.kpHash side), st)
  | true =>
    if (st.kingPawnHashTable side (board.kpHash side % KING_PAWN_HASH_SIZE)).hc =
        board.kpHash side then
      (st.kingPawnHashTable side (board.kpHash side % KING_PAWN_HASH_SIZE), st)
    else
      (mkKPEntry F (board.kpHash side),
       { st with kingPawnHashTable := fun c j =>
           if c = side ∧ j = board.kpHash side % KING_PAWN_HASH_SIZE then
             mkKPEntry F (board.kpHash side)
           else st.kingPawnHashTable c j })

/-- Modelled from the spec: `Scoring::evalu8` (declared at scoring.h line 35,
body in the missing `scoring.cpp`).  It obtains the shared pawn entry, then
each side's king+pawn entry, and feeds them with the board to the pure
scoring pipeline `combine` (material, positional and special-case endgame
scoring, phase blending, side-to-move perspective).  The score and the
updated cache storage are returned. -/
def evalu8 (F : EvalFns) (board : Board) (useCache : Bool) (st : EvalState) :
    Int × EvalState :=
  let p := pawnEntry F board useCache st
  let kw := getKPEntry F ColorType.White board useCache p.2
  let kb := getKPEntry F ColorType.Black board useCache kw.2
  (F.combine board p.1 kw.1 kb.1, kb.2)

/-- The cache-free reference evaluation: what `evalu8` computes when every
lookup is answered by a fresh computation. -/
def evalu8Pure (F : EvalFns) (board : Board) : Int :=
  F.combine board (mkPawnEntry F board.pawnHash)
    (mkKPEntry F (board.kpHash ColorType.White))
    (mkKPEntry F (board.kpHash ColorType.Black))

/-- Cache well-formedness: every stored entry holds exactly the data a fresh
computation produces for its stored fingerprint (the spec's memoization
invariant for both tables). -/
def WfState (F : EvalFns) (st : EvalState) : Prop :=
  (∀ i, st.pawnHashTable i = mkPawnEntry F (st.pawnHashTable i).hc) ∧
  (∀ c i, st.kingPawnHashTable c i = mkKPEntry F (st.kingPawnHashTable c i).hc)

/-- A concrete instantiation of the missing scoring computations, used to
exercise the cache theorems on concrete inputs. -/
def demoF : EvalFns where
  calcPawnData := fun h =>
    (⟨h, 0, 0, 0, 0, 0, (h : Int), (h : Int) + 1, 0, 0, 0, []⟩,
     ⟨0, h, 0, 0, 0, 0, (h : Int) - 2, (h : Int), 0, 0, 0, []⟩)
  calcKPData := fun h => ((h : Int), (h : Int) + 3, 0, 1)
  combine := fun _ pe kw kb =>
    pe.wPawnData.midgame_score - pe.bPawnData.endgame_score + kw.cover - kb.storm

/-- A concrete board for the cache theorems. -/
def demoBoard : Board where
  pawnHash := 5
  kpHash := fun c => match c with | ColorType.White => 7 | ColorType.Black => 11
  sideToMove := ColorType.White

/-- A concrete well-formed cache state (every slot holds the fresh
computation for fingerprint 0, as after a cache clear). -/
def demoState : EvalState where
  pawnHashTable := fun _ => mkPawnEntry demoF 0
  kingPawnHashTable := fun _ _ => mkKPEntry demoF 0

/-- A second concrete well-formed cache state with different contents. -/
def demoState2 : EvalState where
  pawnHashTable := fun _ => mkPawnEntry demoF 5
  kingPawnHashTable := fun _ _ => mkKPEntry demoF 7

/-- Modelled from the spec: an abstract position for the symmetry analysis of
`evalu8`.  Each side's geometry-normalized feature content (pieces, pawns and
king as seen from that side's own viewpoint) is summarized by `feats`, and
`sideToMove` names the side whose perspective the score takes. -/
structure Position where
  feats : ColorType → Int
  sideToMove : ColorType

/-- Modelled from the spec: the per-side positional scoring of the evaluate
pipeline.  One generic function `G` (the per-side template code path) is
applied to the side's own features and the opponent's features, producing
that side's `Scores` triple; being one shared function, it is color-blind. -/
def sideScores (G : Int → Int → Scores) (p : Position) (c : ColorType) : Scores :=
  G (p.feats c) (p.feats (oppositeColor c))

/-- Modelled from the spec: the final composition step of `evalu8` — blend
each side's `Scores` by the material phase and subtract the opponent's
blended score from the side to move's, plus a fixed tempo constant credited
to the side to move. -/
def evaluate (G : Int → Int → Scores) (MATERIAL_SCALE : Nat → Int) (lvl : Nat)
    (TEMPO : Int) (p : Position) : Int :=
  (sideScores G p p.sideToMove).blend MATERIAL_SCALE lvl -
    (sideScores G p (oppositeColor p.sideToMove)).blend MATERIAL_SCALE lvl + TEMPO

/-- The mirror that swaps colors and board geometry but keeps the side to
move: each side now owns the features the other side had. -/
def colorMirror (p : Position) : Position where
  feats := fun c => p.feats (oppositeColor c)
  sideToMove := p.sideToMove

/-- The fully mirrored counterpart: colors and board geometry swapped and
the side to move swapped as well. -/
def fullMirror (p : Position) : Position where
  feats := fun c => p.feats (oppositeColor c)
  sideToMove := oppositeColor p.sideToMove

/-- A concrete per-side scoring function for the symmetry counterexample. -/
def demoG : Int → Int → Scores := fun a b => ⟨a - b, a + b, 2 * a⟩

/-- A concrete material-scale table for the symmetry counterexample. -/
def demoMS : Nat → Int := fun _ => 64

/-- A materially unbalanced concrete position. -/
def demoP1 : Position where
  feats := fun c => match c with | ColorType.White => 10 | ColorType.Black => 3
  sideToMove := ColorType.White

/-- A materially balanced concrete position. -/
def demoP2 : Position where
  feats := fun _ => 3
  sideToMove := ColorType.White

/-- Modelled from the spec: the board surface the stateless draw predicates
consult — the position hash, the externally supplied history of prior
position hashes, the half-move clock, and the per-side piece counts of the
material descriptor. -/
structure BoardD where
  hash : Nat
  repList : List Nat
  halfMoveClock : Nat
  pawnCount : ColorType → Nat
  knightCount : ColorType → Nat
  bishopCount : ColorType → Nat
  rookCount : ColorType → Nat
  queenCount : ColorType → Nat

/-- How often the current position occurs in the supplied history. -/
def repetitionCount (b : BoardD) : Nat := b.repList.count b.hash

/-- Modelled from the spec: `Scoring::repetitionDraw` (declared at scoring.h
line 43, body in the missing `scoring.cpp`) — a legal draw by repetition
requires the position to occur three times. -/
def repetitionDraw (b : BoardD) : Bool := decide (3 ≤ repetitionCount b)

/-- Modelled from the spec: `Scoring::fiftyMoveDraw` (declared at scoring.h
line 49, body in the missing `scoring.cpp`) — true when the half-move clock
since the last pawn move or capture reaches the rule threshold of 100
half-moves. -/
def fiftyMoveDraw (b : BoardD) : Bool := decide (100 ≤ b.halfMoveClock)

/-- Modelled from the spec: `Board::materialDraw`, forwarded by
`Scoring::materialDraw` (scoring.h lines 45-47; `board.cpp` is external) —
remaining material is provably insufficient to force mate: no pawns, rooks
or queens, and at most one minor piece each. -/
def materialDraw (b : BoardD) : Bool :=
  decide (b.pawnCount ColorType.White = 0) && decide (b.pawnCount ColorType.Black = 0) &&
  decide (b.rookCount ColorType.White = 0) && decide (b.rookCount ColorType.Black = 0) &&
  decide (b.queenCount ColorType.White = 0) && decide (b.queenCount ColorType.Black = 0) &&
  decide (b.knightCount ColorType.White + b.bishopCount ColorType.White ≤ 1) &&
  decide (b.knightCount ColorType.Black + b.bishopCount ColorType.Black ≤ 1)

/-- Modelled from the spec: `Scoring::isDraw` (declared at scoring.h line 41,
body in the missing `scoring.cpp`) — the search-internal classification. It
scans the supplied history for the position hash, reports the repetition
count, and applies the more permissive in-search policy where already the
first repetition counts as a draw, alongside the fifty-move and insufficient
material draws. -/
def isDraw (b : BoardD) (ply : Nat) : Bool × Nat :=
  (decide (2 ≤ repetitionCount b) || fiftyMoveDraw b || materialDraw b,
   repetitionCount b)

/-- Modelled from the spec: `Scoring::isLegalDraw` (declared at scoring.h
line 52, body in the missing `scoring.cpp`) — only the strict legal draws
usable to terminate a game: threefold repetition, the fifty-move rule and
insufficient material. -/
def isLegalDraw (b : BoardD) : Bool :=
  repetitionDraw b || fiftyMoveDraw b || materialDraw b

/-- A concrete legally drawn board: its position occurs three times in the
history. -/
def drawBoardLegal : BoardD where
  hash := 0
  repList := [0, 0, 0]
  halfMoveClock := 0
  pawnCount := fun _ => 1
  knightCount := fun _ => 0
  bishopCount := fun _ => 0
  rookCount := fun _ => 0
  queenCount := fun _ => 0

/-- A concrete board drawn for the search but not legally: one repetition,
clock below the threshold, sufficient material. -/
def drawBoardSearch : BoardD where
  hash := 0
  repList := [0, 0]
  halfMoveClock := 0
  pawnCount := fun _ => 1
  knightCount := fun _ => 0
  bishopCount := fun _ => 0
  rookCount := fun _ => 0
  queenCount := fun _ => 0

/-- One root move's tablebase probe data, as produced by the external Fathom
probing code: the move, its DTZ value, and whether playing it preserves the
tablebase win or draw. -/
structure TBMoveInfo where
  move : Nat
  dtz : Nat
  preserves : Bool
deriving DecidableEq, Repr

/-- A successful root tablebase probe: the exact score for the position and
the per-move probe data. -/
structure TBResult where
  score : Int
  moves : List TBMoveInfo
deriving DecidableEq, Repr

/-- The minimum DTZ value among the probed root moves. -/
def minDtz (l : List TBMoveInfo) : Nat :=
  match l with
  | [] => 0
  | m :: ms => (ms.map (fun x => x.dtz)).foldr min m.dtz

/-- Modelled from the spec: `SyzygyTb::probe_root` (declared at syzygy.h
lines 27-33; the probing internals are the external Fathom code, abstracted
here as the oracle `tb`).  With no tablebase result it returns `-1` and
leaves the score and root move set alone; with a result it returns the
minimum DTZ value, sets the score to the exact result and narrows the root
moves to those preserving the tablebase result. -/
def probe_root (tb : Board → Option TBResult) (b : Board) (score0 : Int)
    (rootMoves0 : List Nat) : Int × Int × List Nat :=
  match tb b with
  | none => (-1, score0, rootMoves0)
  | some r =>
      ((minDtz r.moves : Int), r.score,
       (r.moves.filter (fun m => m.preserves)).map (fun m => m.move))

/-- A concrete successful probe result. -/
def demoTBResult : TBResult where
  score := 2
  moves := [⟨0, 5, true⟩, ⟨1, 3, false⟩]

/-- A concrete tablebase oracle that knows exactly the position of
`demoBoard`. -/
def demoTB : Board → Option TBResult :=
  fun bd => if bd.pawnHash = 5 then some demoTBResult else none

/-- One iteration record of the `Rockstar::optimize` loop: the parameter
vector handed out by the optimizer, the objective value, the argument pair
passed to the post-evaluation callback, and the cost reported back to the
optimizer. -/
structure IterRecord where
  theta : List ℚ
  obj : ℚ
  updateCall : ℚ × List ℚ
  cost : ℚ
deriving DecidableEq, Repr

/-- Modelled from the spec: `OptBase::eval` (its source is not among the
given files).  Per the spec's tuning hook it evaluates the objective `func`
on `theta` and then invokes the `update` callback with the objective value
and the evaluated parameter vector; the callback invocation is modelled by
returning its argument pair alongside the objective. -/
def eval (func : List ℚ → ℚ) (theta : List ℚ) : ℚ × (ℚ × List ℚ) :=
  (func theta, (func theta, theta))

/-- The constraint-violation penalty loop of `Rockstar::optimize`
(rockstar.cpp lines 64-71): for each component outside its `[lower, upper]`
box, add the squared distance to the violated bound times
`constraint_penalty`.  Doubles are modelled as exact rationals. -/
def constraintPenalty (cp : ℚ) : List ℚ → List ℚ → List ℚ → ℚ
  | lo :: ls, hi :: us, x :: xs =>
      (if x < lo then (lo - x) ^ 2 * cp
       else if hi < x then (x - hi) ^ 2 * cp
       else 0) + constraintPenalty cp ls us xs
  | _, _, _ => 0

/-- Component-wise box-constraint check for a parameter vector. -/
def inBounds : List ℚ → List ℚ → List ℚ → Bool
  | lo :: ls, hi :: us, x :: xs =>
      decide (lo ≤ x) && decide (x ≤ hi) && inBounds ls us xs
  | _, _, _ => true

/-- `Rockstar::optimize` (rockstar.cpp lines 49-78).  The Rock* optimizer
object (the external `Rockstar.hpp`) is abstracted as a state `σ` with its
two operations `getNextTheta2Evaluate` (here `getNext`) and
`setTheCostFromTheLastTheta` (here `setCost`).  Each of the `eval_limit`
loop iterations asks the optimizer for a parameter vector, evaluates it via
`eval` (objective plus callback), adds the constraint penalty, and reports
the resulting cost back to the optimizer; the returned list records one
`IterRecord` per iteration, in order. -/
def optimize {σ : Type} (getNext : σ → List ℚ × σ) (setCost : σ → ℚ → σ)
    (func : List ℚ → ℚ) (cp : ℚ) (lower upper : List ℚ) :
    Nat → σ → List IterRecord
  | 0, _ => []
  | n + 1, s =>
      let t := getNext s
      let e := eval func t.1
      let cost := e.1 + constraintPenalty cp lower upper t.1
      { theta := t.1, obj := e.1, updateCall := e.2, cost := cost } ::
        optimize getNext setCost func cp lower upper n (setCost t.2 cost)

/-- A concrete optimizer state model for the witness: a trivial state whose
next parameter vector is constant. -/
def demoGetNext : Unit → List ℚ × Unit := fun _ => ([1, 3], ())

/-- The witness model's cost intake. -/
def demoSetCost : Unit → ℚ → Unit := fun _ _ => ()

/-- A concrete objective function for the witness. -/
def demoFunc : List ℚ → ℚ := fun l => l.sum

end Arasan

namespace Arasan

lemma not_pow2OrPrime_8132 : ¬ pow2OrPrime 8132 := by
  rintro (⟨k, hk⟩ | hp)
  · have hb : ∀ k' < 14, (8132 : ℕ) ≠ 2 ^ k' := by decide
    have hk14 : k < 14 := by
      by_contra hge
      push_neg at hge
      have hle : (2 : ℕ) ^ 14 ≤ 2 ^ k := Nat.pow_le_pow_right (by norm_num) hge
      rw [← hk] at hle
      norm_num at hle
    exact hb k hk14 hk
  · exact (by norm_num : ¬ Nat.Prime 8132) hp

lemma not_pow2OrPrime_8096 : ¬ pow2OrPrime 8096 := by
  rintro (⟨k, hk⟩ | hp)
  · have hb : ∀ k' < 14, (8096 : ℕ) ≠ 2 ^ k' := by decide
    have hk14 : k < 14 := by
      by_contra hge
      push_neg at hge
      have hle : (2 : ℕ) ^ 14 ≤ 2 ^ k := Nat.pow_le_pow_right (by norm_num) hge
      rw [← hk] at hle
      norm_num at hle
    exact hb k hk14 hk
  · exact (by norm_num : ¬ Nat.Prime 8096) hp

/-- C2: for every `Scores` triple and material level, `blend` returns
`any + mid*scale/128 + end*(128-scale)/128` with `scale =
MATERIAL_SCALE[materialLevel] ∈ [0,128]` under C++ truncating integer
division; at `scale = 128` the blend equals `any + mid` exactly and at
`scale = 0` it equals `any + end` exactly. -/
theorem scores_blend_spec (s : Scores) (MATERIAL_SCALE : Nat → Int) (lvl : Nat)
    (h0 : 0 ≤ MATERIAL_SCALE lvl) (h128 : MATERIAL_SCALE lvl ≤ 128) :
    s.blend MATERIAL_SCALE lvl =
      s.any + Int.tdiv (s.mid * MATERIAL_SCALE lvl) 128 +
        Int.tdiv (s.«end» * (128 - MATERIAL_SCALE lvl)) 128 ∧
    (MATERIAL_SCALE lvl = 128 → s.blend MATERIAL_SCALE lvl = s.any + s.mid) ∧
    (MATERIAL_SCALE lvl = 0 → s.blend MATERIAL_SCALE lvl = s.any + s.«end») := by
  refine ⟨rfl, ?_, ?_⟩
  · intro h
    unfold Scores.blend
    rw [h]
    rw [Int.mul_tdiv_cancel s.mid (by norm_num)]
    norm_num
  · intro h
    unfold Scores.blend
    rw [h]
    rw [mul_zero, Int.zero_tdiv]
    norm_num

/-- Witness for `scores_blend_spec` at the concrete triple `(3, 5, 7)` with
a material scale table that is constantly 128. -/
theorem scores_blend_spec_witness :
    (0 : Int) ≤ 128 ∧
    Scores.blend ⟨3, 5, 7⟩ (fun _ => (128 : Int)) 0 = 7 + 3 :=
  ⟨by decide,
    ((scores_blend_spec ⟨3, 5, 7⟩ (fun _ => (128 : Int)) 0 (by decide) (by decide)).2.1 rfl)⟩

/-- C7 counterexample: `KING_PAWN_HASH_SIZE = 8132 = 2^2 * 19 * 107` is
neither a power of two nor a prime, so the claim that each cache size is a
power of two or a prime is false as stated. -/
theorem cache_size_pow2_or_prime_counterexample :
    ¬ pow2OrPrime KING_PAWN_HASH_SIZE := by
  rw [KING_PAWN_HASH_SIZE]
  exact not_pow2OrPrime_8132

/-- C7 amended: the normal-build `PAWN_HASH_SIZE` (16384) is a power of two,
but the tuning-build pawn table size (8096 = 2^5*11*23) and
`KING_PAWN_HASH_SIZE` (8132 = 2^2*19*107) are composite non-powers of two:
they are fixed sizes that are neither powers of two nor primes. -/
theorem cache_sizes_amended :
    pow2OrPrime PAWN_HASH_SIZE ∧
    ¬ pow2OrPrime PAWN_HASH_SIZE_TUNE ∧
    ¬ pow2OrPrime KING_PAWN_HASH_SIZE := by
  refine ⟨Or.inl ⟨14, by norm_num [PAWN_HASH_SIZE]⟩, ?_, ?_⟩
  · rw [PAWN_HASH_SIZE_TUNE]
    exact not_pow2OrPrime_8096
  · rw [KING_PAWN_HASH_SIZE]
    exact not_pow2OrPrime_8132

/-- C9: `Scores` equality is component-wise (`a == b` holds exactly when all
three components agree) and `!=` is its exact complement. -/
theorem scores_eq_ne_spec (a b : Scores) :
    (scoresEq a b = true ↔ a.mid = b.mid ∧ a.«end» = b.«end» ∧ a.any = b.any) ∧
    (scoresNe a b = true ↔ ¬ scoresEq a b = true) := by
  constructor
  · simp only [scoresEq, Bool.and_eq_true, beq_iff_eq, and_assoc]
    constructor
    · rintro ⟨h1, h2, h3⟩
      exact ⟨h1.symm, h2.symm, h3.symm⟩
    · rintro ⟨h1, h2, h3⟩
      exact ⟨h1.symm, h2.symm, h3.symm⟩
  · rw [scoresEq, scoresNe]
    simp only [Bool.or_eq_true, bne_iff_ne, Bool.and_eq_true, beq_iff_eq, ne_eq,
      Bool.not_eq_true, not_and]
    tauto

/-- C10: `mateScore(score)` is true exactly when `score` is not the
`INVALID_SCORE` sentinel and its magnitude reaches `TABLEBASE_WIN`; in
particular `mateScore` is false at `INVALID_SCORE` itself, whatever its
magnitude. -/
theorem mateScore_spec (INVALID_SCORE TABLEBASE_WIN score : Int) :
    (mateScore INVALID_SCORE TABLEBASE_WIN score = true ↔
      score ≠ INVALID_SCORE ∧
        (TABLEBASE_WIN ≤ score ∨ score ≤ -TABLEBASE_WIN)) ∧
    mateScore INVALID_SCORE TABLEBASE_WIN INVALID_SCORE = false := by
  constructor
  · simp [mateScore]
  · simp [mateScore]

lemma pawnEntry_true_eq (F : EvalFns) (b : Board) (st : EvalState) :
    pawnEntry F b true st =
      if (st.pawnHashTable (b.pawnHash % PAWN_HASH_SIZE)).hc = b.pawnHash then
        (st.pawnHashTable (b.pawnHash % PAWN_HASH_SIZE), st)
      else
        (mkPawnEntry F b.pawnHash,
         { st with pawnHashTable := fun j =>
             if j = b.pawnHash % PAWN_HASH_SIZE then mkPawnEntry F b.pawnHash
             else st.pawnHashTable j }) := rfl

lemma getKPEntry_true_eq (F : EvalFns) (side : ColorType) (b : Board)
    (st : EvalState) :
    getKPEntry F side b true st =
      if (st.kingPawnHashTable side (b.kpHash side % KING_PAWN_HASH_SIZE)).hc =
          b.kpHash side then
        (st.kingPawnHashTable side (b.kpHash side % KING_PAWN_HASH_SIZE), st)
      else
        (mkKPEntry F (b.kpHash side),
         { st with kingPawnHashTable := fun c j =>
             if c = side ∧ j = b.kpHash side % KING_PAWN_HASH_SIZE then
               mkKPEntry F (b.kpHash side)
             else st.kingPawnHashTable c j }) := rfl

lemma pawnEntry_spec (F : EvalFns) (b : Board) (u : Bool) (st : EvalState)
    (h : WfState F st) :
    (pawnEntry F b u st).1 = mkPawnEntry F b.pawnHash ∧
      WfState F (pawnEntry F b u st).2 := by
  cases u
  · exact ⟨rfl, h⟩
  · rw [pawnEntry_true_eq]
    by_cases he : (st.pawnHashTable (b.pawnHash % PAWN_HASH_SIZE)).hc = b.pawnHash
    · rw [if_pos he]
      refine ⟨?_, h⟩
      have hwf := h.1 (b.pawnHash % PAWN_HASH_SIZE)
      rw [he] at hwf
      exact hwf
    · rw [if_neg he]
      refine ⟨rfl, ?_, h.2⟩
      intro j
      show (if j = b.pawnHash % PAWN_HASH_SIZE then mkPawnEntry F b.pawnHash
          else st.pawnHashTable j) = mkPawnEntry F
          (if j = b.pawnHash % PAWN_HASH_SIZE then mkPawnEntry F b.pawnHash
           else st.pawnHashTable j).hc
      by_cases hj : j = b.pawnHash % PAWN_HASH_SIZE
      · rw [if_pos hj]
        rfl
      · rw [if_neg hj]
        exact h.1 j

lemma getKPEntry_spec (F : EvalFns) (side : ColorType) (b : Board) (u : Bool)
    (st : EvalState) (h : WfState F st) :
    (getKPEntry F side b u st).1 = mkKPEntry F (b.kpHash side) ∧
      WfState F (getKPEntry F side b u st).2 := by
  cases u
  · exact ⟨rfl, h⟩
  · rw [getKPEntry_true_eq]
    by_cases he : (st.kingPawnHashTable side
        (b.kpHash side % KING_PAWN_HASH_SIZE)).hc = b.kpHash side
    · rw [if_pos he]
      refine ⟨?_, h⟩
      have hwf := h.2 side (b.kpHash side % KING_PAWN_HASH_SIZE)
      rw [he] at hwf
      exact hwf
    · rw [if_neg he]
      refine ⟨rfl, h.1, ?_⟩
      intro c j
      show (if c = side ∧ j = b.kpHash side % KING_PAWN_HASH_SIZE then
            mkKPEntry F (b.kpHash side)
          else st.kingPawnHashTable c j) = mkKPEntry F
          (if c = side ∧ j = b.kpHash side % KING_PAWN_HASH_SIZE then
            mkKPEntry F (b.kpHash side)
           else st.kingPawnHashTable c j).hc
      by_cases hc : c = side ∧ j = b.kpHash side % KING_PAWN_HASH_SIZE
      · rw [if_pos hc]
        rfl
      · rw [if_neg hc]
        exact h.2 c j

lemma evalu8_fst_pure (F : EvalFns) (b : Board) (u : Bool) (st : EvalState)
    (h : WfState F st) : (evalu8 F b u st).1 = evalu8Pure F b := by
  have hp := pawnEntry_spec F b u st h
  have hw := getKPEntry_spec F ColorType.White b u (pawnEntry F b u st).2 hp.2
  have hb := getKPEntry_spec F ColorType.Black b u
    (getKPEntry F ColorType.White b u (pawnEntry F b u st).2).2 hw.2
  show F.combine b (pawnEntry F b u st).1
      (getKPEntry F ColorType.White b u (pawnEntry F b u st).2).1
      (getKPEntry F ColorType.Black b u
        (getKPEntry F ColorType.White b u (pawnEntry F b u st).2).2).1
      = evalu8Pure F b
  rw [hp.1, hw.1, hb.1]
  rfl

/-- C1: cache transparency.  For a well-formed cache (every stored entry is
the fresh computation for its stored fingerprint, the spec's memoization
invariant), evaluating with the cache enabled and disabled yields the same
score; with `useCache = false` the evaluator returns the cache storage
untouched and produces the cache-free reference score, consulting nothing. -/
theorem evalu8_cache_transparent (F : EvalFns) (b : Board) (st : EvalState)
    (h : WfState F st) :
    (evalu8 F b true st).1 = (evalu8 F b false st).1 ∧
    (evalu8 F b false st).2 = st ∧
    (evalu8 F b false st).1 = evalu8Pure F b := by
  refine ⟨?_, rfl, rfl⟩
  rw [evalu8_fst_pure F b true st h, evalu8_fst_pure F b false st h]

/-- Witness for `evalu8_cache_transparent` on a concrete scoring
instantiation, board and well-formed cache state. -/
theorem evalu8_cache_transparent_witness :
    (evalu8 demoF demoBoard true demoState).1 =
      (evalu8 demoF demoBoard false demoState).1 ∧
    (evalu8 demoF demoBoard false demoState).2 = demoState ∧
    (evalu8 demoF demoBoard false demoState).1 = evalu8Pure demoF demoBoard :=
  evalu8_cache_transparent demoF demoBoard demoState ⟨fun _ => rfl, fun _ _ => rfl⟩

/-- C3: determinism.  For a fixed board and fixed scoring configuration, two
calls to `evalu8` — with either cache setting and any two well-formed cache
contents — return the identical score. -/
theorem evalu8_deterministic (F : EvalFns) (b : Board) (u1 u2 : Bool)
    (st1 st2 : EvalState) (h1 : WfState F st1) (h2 : WfState F st2) :
    (evalu8 F b u1 st1).1 = (evalu8 F b u2 st2).1 := by
  rw [evalu8_fst_pure F b u1 st1 h1, evalu8_fst_pure F b u2 st2 h2]

/-- Witness for `evalu8_deterministic` at a concrete board, with caching on
against one cache state and caching off against a different cache state. -/
theorem evalu8_deterministic_witness :
    (evalu8 demoF demoBoard true demoState).1 =
      (evalu8 demoF demoBoard false demoState2).1 :=
  evalu8_deterministic demoF demoBoard true false demoState demoState2
    ⟨fun _ => rfl, fun _ _ => rfl⟩ ⟨fun _ => rfl, fun _ _ => rfl⟩

lemma oppositeColor_involutive (c : ColorType) :
    oppositeColor (oppositeColor c) = c := by
  cases c <;> rfl

/-- C4 counterexample: a side-to-move-relative evaluation assigns the fully
mirrored counterpart (colors, geometry and side to move all swapped) the
same score, not the negated one, so `eval P + eval P-mirrored` is `2 * eval P`
and differs between positions; no fixed tempo constant can reconcile the
claimed negation, which would require that sum to be one constant for every
position. -/
theorem evaluate_full_mirror_negation_counterexample :
    evaluate demoG demoMS 0 0 demoP1 + evaluate demoG demoMS 0 0 (fullMirror demoP1) ≠
      evaluate demoG demoMS 0 0 demoP2 + evaluate demoG demoMS 0 0 (fullMirror demoP2) := by
  decide

/-- C4 amended: negation holds for the mirror that swaps colors and geometry
while keeping the side to move — `evaluate(colorMirror P) = 2*TEMPO -
evaluate(P)`, i.e. negation modulo the fixed tempo constant — whereas the
fully mirrored counterpart (side to move swapped too) receives the identical
score. -/
theorem evaluate_mirror_spec (G : Int → Int → Scores) (MATERIAL_SCALE : Nat → Int)
    (lvl : Nat) (TEMPO : Int) (p : Position) :
    evaluate G MATERIAL_SCALE lvl TEMPO (colorMirror p) =
      2 * TEMPO - evaluate G MATERIAL_SCALE lvl TEMPO p ∧
    evaluate G MATERIAL_SCALE lvl TEMPO (fullMirror p) =
      evaluate G MATERIAL_SCALE lvl TEMPO p := by
  have hcm : ∀ c, sideScores G (colorMirror p) c = sideScores G p (oppositeColor c) :=
    fun _ => rfl
  have hfm : ∀ c, sideScores G (fullMirror p) c = sideScores G p (oppositeColor c) :=
    fun _ => rfl
  constructor
  · unfold evaluate
    have h1 : (colorMirror p).sideToMove = p.sideToMove := rfl
    rw [h1, hcm, hcm]
    simp only [oppositeColor_involutive]
    ring
  · unfold evaluate
    have h2 : (fullMirror p).sideToMove = oppositeColor p.sideToMove := rfl
    rw [h2, hfm, hfm]
    simp only [oppositeColor_involutive]

/-- C5: `isLegalDraw` is a strict subset of `isDraw` — every position it
classifies as a draw is also classified as a draw by `isDraw`, for any
supplied history and ply, while `isDraw` additionally flags positions (a
first in-search repetition) that are not legal draws. -/
theorem isLegalDraw_subset_isDraw :
    (∀ (b : BoardD) (ply : Nat), isLegalDraw b = true → (isDraw b ply).1 = true) ∧
    (∃ (b : BoardD) (ply : Nat), (isDraw b ply).1 = true ∧ isLegalDraw b = false) := by
  constructor
  · intro b ply h
    unfold isLegalDraw repetitionDraw at h
    unfold isDraw
    simp only [Bool.or_eq_true, decide_eq_true_eq] at h ⊢
    rcases h with (h3 | hf) | hm
    · exact Or.inl (Or.inl (by omega))
    · exact Or.inl (Or.inr hf)
    · exact Or.inr hm
  · refine ⟨drawBoardSearch, 0, ?_, ?_⟩
    · decide
    · decide

/-- Witness for the subset direction of `isLegalDraw_subset_isDraw` at a
concrete threefold-repetition board. -/
theorem isLegalDraw_subset_isDraw_witness :
    (isDraw drawBoardLegal 0).1 = true :=
  isLegalDraw_subset_isDraw.1 drawBoardLegal 0 (by decide)

/-- C6: `probe_root` returns `-1` exactly when the tablebase oracle has no
result for the position; when it has one, the return value is the minimum
DTZ value, the output score is the exact tablebase result, and the root move
set is narrowed to the moves preserving that result. -/
theorem probe_root_spec (tb : Board → Option TBResult) (b : Board)
    (score0 : Int) (rootMoves0 : List Nat) :
    ((probe_root tb b score0 rootMoves0).1 = -1 ↔ tb b = none) ∧
    (∀ r, tb b = some r →
      probe_root tb b score0 rootMoves0 =
        ((minDtz r.moves : Int), r.score,
         (r.moves.filter (fun m => m.preserves)).map (fun m => m.move))) := by
  constructor
  · cases htb : tb b with
    | none => simp [probe_root, htb]
    | some r =>
        simp only [probe_root, htb]
        constructor
        · intro hmin
          exfalso
          omega
        · intro hcontra
          exact absurd hcontra (by simp)
  · intro r hr
    simp [probe_root, hr]

/-- Witness for `probe_root_spec`: the oracle knows `demoBoard`, and the
probe reports the minimum DTZ, the exact score and the narrowed move set. -/
theorem probe_root_spec_witness :
    probe_root demoTB demoBoard 0 [] =
      ((minDtz demoTBResult.moves : Int), demoTBResult.score,
       (demoTBResult.moves.filter (fun m => m.preserves)).map (fun m => m.move)) :=
  (probe_root_spec demoTB demoBoard 0 []).2 demoTBResult rfl

lemma constraintPenalty_of_inBounds (cp : ℚ) :
    ∀ lower upper theta, inBounds lower upper theta = true →
      constraintPenalty cp lower upper theta = 0 := by
  intro lower
  induction lower with
  | nil =>
      intro upper theta h
      rfl
  | cons lo ls ih =>
      intro upper theta h
      cases upper with
      | nil => rfl
      | cons hi us =>
          cases theta with
          | nil => rfl
          | cons x xs =>
              have h2 : (decide (lo ≤ x) && decide (x ≤ hi) && inBounds ls us xs) = true := h
              simp only [Bool.and_eq_true, decide_eq_true_eq] at h2
              show (if x < lo then (lo - x) ^ 2 * cp
                  else if hi < x then (x - hi) ^ 2 * cp
                  else 0) + constraintPenalty cp ls us xs = 0
              rw [if_neg (not_lt.mpr h2.1.1), if_neg (not_lt.mpr h2.1.2),
                ih us xs h2.2]
              norm_num

lemma optimize_length {σ : Type} (getNext : σ → List ℚ × σ) (setCost : σ → ℚ → σ)
    (func : List ℚ → ℚ) (cp : ℚ) (lower upper : List ℚ) :
    ∀ (n : Nat) (s : σ),
      (optimize getNext setCost func cp lower upper n s).length = n := by
  intro n
  induction n with
  | zero => intro s; rfl
  | succ n ih =>
      intro s
      simp only [optimize, List.length_cons]
      rw [ih]

lemma optimize_mem {σ : Type} (getNext : σ → List ℚ × σ) (setCost : σ → ℚ → σ)
    (func : List ℚ → ℚ) (cp : ℚ) (lower upper : List ℚ) :
    ∀ (n : Nat) (s : σ) (r : IterRecord),
      r ∈ optimize getNext setCost func cp lower upper n s →
        r.obj = func r.theta ∧ r.updateCall = (r.obj, r.theta) ∧
        r.cost = r.obj + constraintPenalty cp lower upper r.theta := by
  intro n
  induction n with
  | zero =>
      intro s r hr
      simp only [optimize, List.not_mem_nil] at hr
  | succ n ih =>
      intro s r hr
      simp only [optimize, List.mem_cons] at hr
      rcases hr with hr | hr
      · subst hr
        exact ⟨rfl, rfl, rfl⟩
      · exact ih _ r hr

/-- C8: the `Rockstar::optimize` loop performs exactly `eval_limit`
evaluations; each records the objective value at the evaluated parameter
vector, the post-evaluation callback is invoked with exactly that objective
and vector, and the cost reported back to the optimizer is the objective
plus the box-constraint penalty — which is zero whenever every component is
within its bounds. -/
theorem rockstar_optimize_spec {σ : Type} (getNext : σ → List ℚ × σ)
    (setCost : σ → ℚ → σ) (func : List ℚ → ℚ) (cp : ℚ)
    (lower upper : List ℚ) (eval_limit : Nat) (s0 : σ) :
    (optimize getNext setCost func cp lower upper eval_limit s0).length = eval_limit ∧
    (∀ r ∈ optimize getNext setCost func cp lower upper eval_limit s0,
      r.obj = func r.theta ∧ r.updateCall = (r.obj, r.theta) ∧
      r.cost = r.obj + constraintPenalty cp lower upper r.theta) ∧
    (∀ theta, inBounds lower upper theta = true →
      constraintPenalty cp lower upper theta = 0) :=
  ⟨optimize_length getNext setCost func cp lower upper eval_limit s0,
   fun r hr => optimize_mem getNext setCost func cp lower upper eval_limit s0 r hr,
   fun theta h => constraintPenalty_of_inBounds cp lower upper theta h⟩

/-- Witness for `rockstar_optimize_spec`: a three-iteration run of the loop
on a concrete optimizer model, and a concrete in-bounds vector with zero
penalty. -/
theorem rockstar_optimize_spec_witness :
    (optimize demoGetNext demoSetCost demoFunc 100 [0, 0] [2, 2] 3 ()).length = 3 ∧
    constraintPenalty 100 [0, 0] [2, 2] [1, 2] = 0 :=
  ⟨(rockstar_optimize_spec demoGetNext demoSetCost demoFunc 100 [0, 0] [2, 2] 3 ()).1,
   (rockstar_optimize_spec demoGetNext demoSetCost demoFunc 100 [0, 0] [2, 2] 3 ()).2.2
     [1, 2] (by decide)⟩

end Arasan
